import Mathlib

/-!
Verification development for the slag layout-to-punctuation synthesizer
(src/src/main.rs).  The layout engine (handle_tts), the position-aware
emitter (print_with_span) and the span geometry are embedded shallowly:
spans arrive pre-resolved to (first_line, first_col, last_line, last_col)
since the span resolver is an external collaborator, and file output is
modelled as a list of emission events so that synthesized punctuation is
distinguishable from re-emitted token text.
-/

namespace Slag

/-- usize::MAX, used by main as the sentinel initial cursor line. -/
def USIZE_MAX : Nat := 18446744073709551615

/-- The emitter cursor: last written (line, column), Rust local last_pos. -/
structure Pos where
  line : Nat
  col : Nat
deriving DecidableEq, Repr

/-- A span already resolved by ends_from_span:
(first_line.line_index, first_line.start_col, last_line.line_index, last_line.end_col). -/
structure SpanEnds where
  firstLine : Nat
  firstCol : Nat
  lastLine : Nat
  lastCol : Nat
deriving DecidableEq, Repr

/-- Rust enum BlockFlag: None, Toplevel, Match, EnumStruct
(noneF, toplevel, matchF, enumStruct here; match is a Lean keyword). -/
inductive BlockFlag where
  | noneF
  | toplevel
  | matchF
  | enumStruct
deriving DecidableEq, Repr

/-- The token payloads the engine distinguishes: Token::FatArrow,
Token::Ident with its IdentStyle (plain = IdentStyle::Plain), and every
other token abstracted to its pprust rendering. -/
inductive Tok where
  | fatArrow
  | ident (name : String) (plain : Bool)
  | other (rendered : String)
deriving DecidableEq, Repr

/-- pprust::token_to_string restricted to the embedded token payloads. -/
def tokenToString : Tok → String
  | Tok.fatArrow => "=>"
  | Tok.ident name _ => name
  | Tok.other s => s

/-- DelimToken: Paren, Bracket, Brace. -/
inductive Delim where
  | paren
  | bracket
  | brace
deriving DecidableEq, Repr

/-- Opening delimiter text chosen at src/src/main.rs lines 178-182. -/
def openStr : Delim → String
  | Delim.paren => "("
  | Delim.bracket => "["
  | Delim.brace => "\x7b"

/-- Closing delimiter text chosen at src/src/main.rs lines 178-182. -/
def closeStr : Delim → String
  | Delim.paren => ")"
  | Delim.bracket => "]"
  | Delim.brace => "\x7d"

mutual
/-- TokenTree: TtToken(span, tok), TtDelimited(span, Delimited with
open_span, tts, close_span), TtSequence(span, ..). The whole-tree span
(what get_span returns) is stored alongside the delimiter spans. -/
inductive TokenTree where
  | tok (span : SpanEnds) (t : Tok)
  | delimited (span : SpanEnds) (delim : Delim) (openSpan closeSpan : SpanEnds)
      (tts : TTList)
  | sequence (span : SpanEnds)

/-- A token stream; a separate list type so that the engine recursion is
structural over the mutual inductive family. -/
inductive TTList where
  | nil
  | cons (tt : TokenTree) (rest : TTList)
end

/-- TokenTree::get_span. -/
def getSpan : TokenTree → SpanEnds
  | TokenTree.tok s _ => s
  | TokenTree.delimited s _ _ _ _ => s
  | TokenTree.sequence s => s

/-- iter.peek() at the start of a remaining stream. -/
def TTList.headOpt : TTList → Option TokenTree
  | TTList.nil => none
  | TTList.cons tt _ => some tt

/-- One emission event in the output file.  Leaf-token text goes through
print_with_span (newline, spaces, text); the synthesized punctuation is
written directly: semi is ";", comma is ",", openB is " \x7b",
closeB is " \x7d". -/
inductive Out where
  | newline
  | spaces (n : Nat)
  | text (s : String)
  | semi
  | comma
  | openB
  | closeB
deriving DecidableEq, Repr

/-- The two panics in handle_tts plus the .unwrap() on an empty stack. -/
inductive Err where
  | indentNotFound
  | unexpectedSequence
  | unwrapNone
deriving DecidableEq, Repr

/-- print_with_span (src/src/main.rs lines 65-85): if the token starts on
a strictly later line than the cursor, newline plus first_col spaces;
otherwise last_pos.1..first_col spaces (an empty Rust range when
last_pos.1 is not below first_col, hence the truncated subtraction).
The cursor becomes the token's end position in either case. -/
def printWithSpan (lastPos : Pos) (tok : String) (span : SpanEnds) :
    List Out × Pos :=
  (if span.firstLine > lastPos.line then
    [Out.newline, Out.spaces span.firstCol, Out.text tok]
  else
    [Out.spaces (span.firstCol - lastPos.col), Out.text tok],
  ⟨span.lastLine, span.lastCol⟩)

/-- The dedent pop loop (src/src/main.rs lines 118-128): pop levels,
writing one synthesized close per pop, until the top column equals the
dedent column; an exhausted stack is the fatal layout panic. -/
def popTo (col : Nat) : List (Nat × BlockFlag) →
    Except Err (List Out × List (Nat × BlockFlag))
  | [] => Except.error Err.indentNotFound
  | (c, k) :: rest =>
    if c = col then Except.ok ([], (c, k) :: rest)
    else
      match popTo col rest with
      | Except.error e => Except.error e
      | Except.ok (o, st) => Except.ok (Out.closeB :: o, st)

/-- The separator/close decision (src/src/main.rs lines 101-137), acting
on the item's resolved span, the loop-local last_line and the indent
stack.  Returns the emissions, the updated last_line, and the updated
stack.  The emitter cursor is neither read nor written here, exactly as
in the source where this block only uses write! on raw punctuation. -/
def sepClose (span : SpanEnds) (lastLine : Nat)
    (stack : List (Nat × BlockFlag)) :
    Except Err (List Out × Nat × List (Nat × BlockFlag)) :=
  if lastLine = USIZE_MAX then
    Except.ok ([], span.firstLine, stack)
  else if span.lastLine > lastLine then
    match stack with
    | [] => Except.error Err.unwrapNone
    | (oldIndent, flag) :: rest =>
      if span.firstCol = oldIndent then
        Except.ok ([if flag = BlockFlag.noneF then Out.semi else Out.comma],
          span.lastLine, (oldIndent, flag) :: rest)
      else if span.firstCol < oldIndent then
        match popTo span.firstCol ((oldIndent, flag) :: rest) with
        | Except.error e => Except.error e
        | Except.ok (o, st) =>
          match st with
          | [] => Except.error Err.unwrapNone
          | (c2, f2) :: r2 =>
            let sep : List Out :=
              if f2 = BlockFlag.noneF then [Out.semi]
              else if f2 ≠ BlockFlag.toplevel then [Out.comma] else []
            Except.ok (o ++ sep, span.lastLine, (c2, f2) :: r2)
      else
        Except.ok ([], span.lastLine, (oldIndent, flag) :: rest)
  else
    Except.ok ([], lastLine, stack)

/-- The per-invocation loop state of handle_tts: the shared emitter
cursor last_pos and the locals last_line, indent_stack (head is the
Vec top) and block_flag. -/
structure LoopState where
  lastPos : Pos
  lastLine : Nat
  stack : List (Nat × BlockFlag)
  blockFlag : BlockFlag
deriving DecidableEq, Repr

/-- The end-of-stream flush (src/src/main.rs lines 192-195): one
synthesized close per level above the sentinel. -/
def closeRemaining (stack : List (Nat × BlockFlag)) : List Out :=
  List.replicate (stack.length - 1) Out.closeB

/-- The keyword lookback (src/src/main.rs lines 165-171): a plain-style
ident named match or struct or enum updates block_flag. -/
def keywordFlag (t : Tok) (flag : BlockFlag) : BlockFlag :=
  match t with
  | Tok.ident name true =>
    if name = "match" then BlockFlag.matchF
    else if name = "struct" ∨ name = "enum" then BlockFlag.enumStruct
    else flag
  | _ => flag

mutual
/-- The dispatch on the next item (src/src/main.rs lines 140-189).
For a delimited tree the recursive handle_tts call is inlined: the inner
stream runs from a fresh state whose stack is the seeded sentinel, whose
last_line is the current cursor line, and the inner flush closes its
residual levels before the closing delimiter is printed. -/
def dispatchTT (tt : TokenTree) (peek : Option TokenTree) (s : LoopState) :
    Except Err (List Out × LoopState) :=
  match tt with
  | TokenTree.tok span t =>
    match t with
    | Tok.fatArrow =>
      match s.stack with
      | [] => Except.error Err.unwrapNone
      | (c, f) :: rest =>
        let arrow : List Out × Pos :=
          if f = BlockFlag.matchF then printWithSpan s.lastPos "=>" span
          else ([], s.lastPos)
        match peek with
        | none =>
          Except.ok (arrow.1 ++ [Out.openB, Out.closeB],
            { s with lastPos := arrow.2 })
        | some ptt =>
          let ps := getSpan ptt
          Except.ok (arrow.1 ++ [Out.openB],
            { lastPos := arrow.2,
              lastLine := ps.lastLine,
              stack := (ps.firstCol, s.blockFlag) :: (c, f) :: rest,
              blockFlag := BlockFlag.noneF })
    | t' =>
      let flag2 := keywordFlag t' s.blockFlag
      let pr := printWithSpan s.lastPos (tokenToString t') span
      Except.ok (pr.1, { s with lastPos := pr.2, blockFlag := flag2 })
  | TokenTree.delimited _ d os cs inner =>
    let prOpen := printWithSpan s.lastPos (openStr d) os
    match handleList inner
        ⟨prOpen.2, prOpen.2.line, [(0, BlockFlag.toplevel)], BlockFlag.noneF⟩ with
    | Except.error e => Except.error e
    | Except.ok (o2, s2) =>
      let prClose := printWithSpan s2.lastPos (closeStr d) cs
      Except.ok (prOpen.1 ++ (o2 ++ closeRemaining s2.stack) ++ prClose.1,
        { s with lastPos := prClose.2 })
  | TokenTree.sequence _ => Except.error Err.unexpectedSequence

/-- The main loop of handle_tts (src/src/main.rs lines 96-190): for each
item, the separator/close decision on its span, then the dispatch, with
the peek of the following item supplied to the dispatch. -/
def handleList (tts : TTList) (s : LoopState) :
    Except Err (List Out × LoopState) :=
  match tts with
  | TTList.nil => Except.ok ([], s)
  | TTList.cons tt rest =>
    match sepClose (getSpan tt) s.lastLine s.stack with
    | Except.error e => Except.error e
    | Except.ok (o1, ll, st) =>
      match dispatchTT tt rest.headOpt { s with lastLine := ll, stack := st } with
      | Except.error e => Except.error e
      | Except.ok (o2, s2) =>
        match handleList rest s2 with
        | Except.error e => Except.error e
        | Except.ok (o3, s3) => Except.ok (o1 ++ o2 ++ o3, s3)
end

/-- One loop iteration viewed on its own: the separator/close decision
followed by the dispatch.  handleList on a cons is exactly a step
followed by the loop on the tail. -/
def step (tt : TokenTree) (peek : Option TokenTree) (s : LoopState) :
    Except Err (List Out × LoopState) :=
  match sepClose (getSpan tt) s.lastLine s.stack with
  | Except.error e => Except.error e
  | Except.ok (o1, ll, st) =>
    match dispatchTT tt peek { s with lastLine := ll, stack := st } with
    | Except.error e => Except.error e
    | Except.ok (o2, s2) => Except.ok (o1 ++ o2, s2)

/-- handle_tts (src/src/main.rs lines 87-196): run the loop from the
seeded state (last_line starts as last_pos.0, the stack as the sentinel
vector, block_flag as None), then flush the residual levels. -/
def handleTTs (tts : TTList) (lastPos : Pos) : Except Err (List Out × Pos) :=
  match handleList tts
      ⟨lastPos, lastPos.line, [(0, BlockFlag.toplevel)], BlockFlag.noneF⟩ with
  | Except.error e => Except.error e
  | Except.ok (o, s) => Except.ok (o ++ closeRemaining s.stack, s.lastPos)

/-- main (src/src/main.rs line 45): the transform starts with the cursor
at (usize::MAX, 0). -/
def slagMain (tts : TTList) : Except Err (List Out × Pos) :=
  handleTTs tts ⟨USIZE_MAX, 0⟩

/-- Observation: columns strictly decreasing from the head (the Vec top)
to the tail, i.e. strictly increasing from the bottom sentinel to the
top of the Indentation Stack. -/
def decreasingCols : List (Nat × BlockFlag) → Bool
  | [] => true
  | [_] => true
  | a :: b :: rest => decide (b.1 < a.1) && decreasingCols (b :: rest)

/-- The seeded loop state a fresh engine invocation starts from. -/
def initState (p : Pos) : LoopState :=
  ⟨p, p.line, [(0, BlockFlag.toplevel)], BlockFlag.noneF⟩

/-- Scenario B input: a then b, both at column 0 on consecutive lines. -/
def exB : TTList :=
  TTList.cons (TokenTree.tok ⟨0, 0, 0, 1⟩ (Tok.other "a"))
    (TTList.cons (TokenTree.tok ⟨1, 0, 1, 1⟩ (Tok.other "b")) TTList.nil)

/-- What slagMain emits on Scenario B. -/
def exBOut : List Out :=
  [Out.spaces 0, Out.text "a", Out.comma, Out.newline, Out.spaces 0, Out.text "b"]

/-- Scenario A input: the keyword match, a fat arrow, then a and b at
column 4 on the following lines. -/
def exA : TTList :=
  TTList.cons (TokenTree.tok ⟨0, 0, 0, 5⟩ (Tok.ident "match" true))
    (TTList.cons (TokenTree.tok ⟨0, 6, 0, 8⟩ Tok.fatArrow)
      (TTList.cons (TokenTree.tok ⟨1, 4, 1, 5⟩ (Tok.other "a"))
        (TTList.cons (TokenTree.tok ⟨2, 4, 2, 5⟩ (Tok.other "b")) TTList.nil)))

/-- What slagMain emits on Scenario A. -/
def exAOut : List Out :=
  [Out.spaces 0, Out.text "match", Out.openB, Out.newline, Out.spaces 4,
    Out.text "a", Out.comma, Out.newline, Out.spaces 4, Out.text "b", Out.closeB]

/-- An explicit parenthesis group whose single inner token a sits at
column 0 of the line after the opening delimiter. -/
def exParen : TTList :=
  TTList.cons (TokenTree.delimited ⟨0, 0, 1, 2⟩ Delim.paren ⟨0, 0, 0, 1⟩ ⟨1, 1, 1, 2⟩
    (TTList.cons (TokenTree.tok ⟨1, 0, 1, 1⟩ (Tok.other "a")) TTList.nil)) TTList.nil

/-- What slagMain emits on exParen. -/
def exParenOut : List Out :=
  [Out.spaces 0, Out.text "(", Out.comma, Out.newline, Out.spaces 0, Out.text "a",
    Out.spaces 0, Out.text ")"]

/-- match, its fat arrow, and the next token already back at column 0:
the push at the block-open marker records column 0 on top of the
column-0 sentinel. -/
def ex3 : TTList :=
  TTList.cons (TokenTree.tok ⟨0, 0, 0, 5⟩ (Tok.ident "match" true))
    (TTList.cons (TokenTree.tok ⟨0, 6, 0, 8⟩ Tok.fatArrow)
      (TTList.cons (TokenTree.tok ⟨1, 0, 1, 1⟩ (Tok.other "c")) TTList.nil))

/-- The loop output on ex3 before the end-of-stream flush. -/
def ex3Out : List Out :=
  [Out.spaces 0, Out.text "match", Out.openB, Out.newline, Out.spaces 0, Out.text "c"]

/-- The loop state after consuming ex3, still holding the two open
levels: both at column 0. -/
def ex3State : LoopState :=
  ⟨⟨1, 1⟩, 1, [(0, BlockFlag.matchF), (0, BlockFlag.toplevel)], BlockFlag.noneF⟩

/-- A successful pop loop stops exactly on a level whose column is the
dedent column, so the resulting stack is that level onward. -/
theorem popTo_ok_shape (col : Nat) :
    ∀ (st : List (Nat × BlockFlag)) (o : List Out) (st2 : List (Nat × BlockFlag)),
      popTo col st = Except.ok (o, st2) →
      ∃ k r, st2 = (col, k) :: r
  | [], o, st2, h => by simp [popTo] at h
  | (c, k) :: rest, o, st2, h => by
    by_cases hc : c = col
    · subst hc
      simp [popTo] at h
      exact ⟨k, rest, h.2.symm⟩
    · rw [popTo, if_neg hc] at h
      cases hp : popTo col rest with
      | error e => rw [hp] at h; exact absurd h (by simp)
      | ok v =>
        rw [hp] at h
        obtain ⟨o2, st3⟩ := v
        simp at h
        obtain ⟨k2, r2, hr⟩ := popTo_ok_shape col rest o2 st3 hp
        exact ⟨k2, r2, h.2 ▸ hr⟩

/-- A successful pop loop emits no synthesized opens and exactly one
synthesized close per popped level. -/
theorem popTo_counts (col : Nat) :
    ∀ (st : List (Nat × BlockFlag)) (o : List Out) (st2 : List (Nat × BlockFlag)),
      popTo col st = Except.ok (o, st2) →
      o.count Out.openB = 0 ∧ o.count Out.closeB + st2.length = st.length
  | [], o, st2, h => by simp [popTo] at h
  | (c, k) :: rest, o, st2, h => by
    by_cases hc : c = col
    · subst hc
      simp [popTo] at h
      obtain ⟨h1, h2⟩ := h
      subst h1; subst h2
      simp
    · rw [popTo, if_neg hc] at h
      cases hp : popTo col rest with
      | error e => rw [hp] at h; exact absurd h (by simp)
      | ok v =>
        rw [hp] at h
        obtain ⟨o2, st3⟩ := v
        simp at h
        obtain ⟨ho, hc2⟩ := popTo_counts col rest o2 st3 hp
        obtain ⟨h1, h2⟩ := h
        subst h1; subst h2
        constructor
        · simpa using ho
        · simp [List.count_cons]
          omega

/-- When no open level carries the dedent column the pop loop exhausts
the stack and raises the fatal indentation panic. -/
theorem popTo_not_mem (col : Nat) :
    ∀ (st : List (Nat × BlockFlag)), (∀ l ∈ st, l.1 ≠ col) →
      popTo col st = Except.error Err.indentNotFound
  | [], _ => by simp [popTo]
  | (c, k) :: rest, h => by
    have hc : c ≠ col := h (c, k) (by simp)
    rw [popTo, if_neg hc, popTo_not_mem col rest (fun l hl => h l (by simp [hl]))]

/-- Popping through a prefix of levels none of which sits at the dedent
column stops exactly at the first matching level, with one synthesized
close per skipped level. -/
theorem popTo_skip (col : Nat) :
    ∀ (pre : List (Nat × BlockFlag)) (k : BlockFlag) (rest : List (Nat × BlockFlag)),
      (∀ l ∈ pre, l.1 ≠ col) →
      popTo col (pre ++ (col, k) :: rest) =
        Except.ok (List.replicate pre.length Out.closeB, (col, k) :: rest)
  | [], k, rest, _ => by simp [popTo]
  | (c0, k0) :: pre, k, rest, h => by
    have hc : c0 ≠ col := h (c0, k0) (by simp)
    rw [List.cons_append, popTo, if_neg hc,
      popTo_skip col pre k rest (fun l hl => h l (by simp [hl]))]
    simp [List.replicate_succ]

/-- print_with_span never writes synthesized block delimiters. -/
theorem printWithSpan_counts (p : Pos) (t : String) (sp : SpanEnds) :
    (printWithSpan p t sp).1.count Out.openB = 0 ∧
    (printWithSpan p t sp).1.count Out.closeB = 0 := by
  unfold printWithSpan
  split <;> simp [List.count_cons]

/-- A successful separator/close decision never leaves the stack empty:
every branch either keeps it or stops the pop loop on a matching level. -/
theorem sepClose_ok_ne (sp : SpanEnds) (ll : Nat) (st : List (Nat × BlockFlag))
    (o : List Out) (ll2 : Nat) (st2 : List (Nat × BlockFlag))
    (hne : st ≠ []) (h : sepClose sp ll st = Except.ok (o, ll2, st2)) :
    st2 ≠ [] := by
  unfold sepClose at h
  by_cases hmax : ll = USIZE_MAX
  · simp [hmax] at h
    obtain ⟨_, _, h3⟩ := h
    subst h3; exact hne
  · by_cases hgt : sp.lastLine > ll
    · cases st with
      | nil => exact absurd rfl hne
      | cons hd rest =>
        obtain ⟨c0, f0⟩ := hd
        by_cases heq : sp.firstCol = c0
        · simp [hmax, hgt, heq] at h
          obtain ⟨_, _, h3⟩ := h
          subst h3; simp
        · by_cases hlt : sp.firstCol < c0
          · cases hp : popTo sp.firstCol ((c0, f0) :: rest) with
            | error e => simp [hmax, hgt, heq, hlt, hp] at h
            | ok v =>
              obtain ⟨o1, st1⟩ := v
              obtain ⟨k1, r1, rfl⟩ := popTo_ok_shape _ _ _ _ hp
              simp [hmax, hgt, heq, hlt, hp] at h
              obtain ⟨_, _, h3⟩ := h
              subst h3; simp
          · simp [hmax, hgt, heq, hlt] at h
            obtain ⟨_, _, h3⟩ := h
            subst h3; simp
    · simp [hmax, hgt] at h
      obtain ⟨_, _, h3⟩ := h
      subst h3; exact hne

/-- A successful separator/close decision emits no synthesized opens and
exactly one synthesized close per level it removes. -/
theorem sepClose_balance (sp : SpanEnds) (ll : Nat) (st : List (Nat × BlockFlag))
    (o : List Out) (ll2 : Nat) (st2 : List (Nat × BlockFlag))
    (h : sepClose sp ll st = Except.ok (o, ll2, st2)) :
    o.count Out.openB = 0 ∧ o.count Out.closeB + st2.length = st.length := by
  unfold sepClose at h
  by_cases hmax : ll = USIZE_MAX
  · simp [hmax] at h
    obtain ⟨h1, _, h3⟩ := h
    subst h1; subst h3; simp
  · by_cases hgt : sp.lastLine > ll
    · cases st with
      | nil => simp [hmax, hgt] at h
      | cons hd rest =>
        obtain ⟨c0, f0⟩ := hd
        by_cases heq : sp.firstCol = c0
        · simp [hmax, hgt, heq] at h
          obtain ⟨h1, _, h3⟩ := h
          subst h1; subst h3
          constructor
          · split <;> simp
          · split <;> simp
        · by_cases hlt : sp.firstCol < c0
          · cases hp : popTo sp.firstCol ((c0, f0) :: rest) with
            | error e => simp [hmax, hgt, heq, hlt, hp] at h
            | ok v =>
              obtain ⟨o1, st1⟩ := v
              obtain ⟨k1, r1, rfl⟩ := popTo_ok_shape _ _ _ _ hp
              simp [hmax, hgt, heq, hlt, hp] at h
              obtain ⟨h1, _, h3⟩ := h
              subst h1; subst h3
              have hcounts := popTo_counts _ _ _ _ hp
              have h2 := hcounts.2
              simp at h2
              constructor
              · simp [List.count_append, hcounts.1]
                split
                · simp
                · split <;> simp
              · simp [List.count_append]
                split
                · simp; omega
                · split <;> simp <;> omega
          · simp [hmax, hgt, heq, hlt] at h
            obtain ⟨h1, _, h3⟩ := h
            subst h1; subst h3; simp
    · simp [hmax, hgt] at h
      obtain ⟨h1, _, h3⟩ := h
      subst h1; subst h3; simp

/-- The end-of-stream flush emits closes only. -/
theorem closeRemaining_count (st : List (Nat × BlockFlag)) :
    (closeRemaining st).count Out.openB = 0 ∧
    (closeRemaining st).count Out.closeB = st.length - 1 := by
  constructor <;> simp [closeRemaining, List.count_replicate]

/-- The dispatch never empties the stack: it leaves it unchanged or
pushes one level. -/
theorem dispatchTT_stack_ne (tt : TokenTree) (peek : Option TokenTree) (s : LoopState)
    (o : List Out) (s2 : LoopState) (hne : s.stack ≠ [])
    (h : dispatchTT tt peek s = Except.ok (o, s2)) : s2.stack ≠ [] := by
  cases tt with
  | tok span t =>
    cases t with
    | fatArrow =>
      cases hst : s.stack with
      | nil => exact absurd hst hne
      | cons hd rest =>
        obtain ⟨c, f⟩ := hd
        cases peek with
        | none =>
          simp [dispatchTT, hst] at h
          obtain ⟨_, h2⟩ := h
          subst h2
          simp [hst]
        | some ptt =>
          simp [dispatchTT, hst] at h
          obtain ⟨_, h2⟩ := h
          subst h2
          simp
    | ident name pl =>
      simp [dispatchTT] at h
      obtain ⟨_, h2⟩ := h
      subst h2
      simpa using hne
    | other r =>
      simp [dispatchTT] at h
      obtain ⟨_, h2⟩ := h
      subst h2
      simpa using hne
  | delimited sp d os cs inner =>
    simp only [dispatchTT] at h
    split at h
    · exact absurd h (by simp)
    · simp at h
      obtain ⟨_, h2⟩ := h
      subst h2
      simpa using hne
  | sequence sp => simp [dispatchTT] at h

/-- The loop on a cons is one step followed by the loop on the tail. -/
theorem handleList_cons (tt : TokenTree) (rest : TTList) (s : LoopState) :
    handleList (TTList.cons tt rest) s =
      match step tt rest.headOpt s with
      | Except.error e => Except.error e
      | Except.ok (o1, s1) =>
        match handleList rest s1 with
        | Except.error e => Except.error e
        | Except.ok (o2, s2) => Except.ok (o1 ++ o2, s2) := by
  simp only [handleList, step]
  cases hsep : sepClose (getSpan tt) s.lastLine s.stack with
  | error e => simp
  | ok v =>
    obtain ⟨o1, ll, st⟩ := v
    dsimp only
    cases hdisp : dispatchTT tt rest.headOpt { s with lastLine := ll, stack := st } with
    | error e => rfl
    | ok w => rfl

/-- One loop step never empties the stack. -/
theorem step_stack_ne (tt : TokenTree) (peek : Option TokenTree) (s : LoopState)
    (o : List Out) (s2 : LoopState) (hne : s.stack ≠ [])
    (h : step tt peek s = Except.ok (o, s2)) : s2.stack ≠ [] := by
  unfold step at h
  cases hsep : sepClose (getSpan tt) s.lastLine s.stack with
  | error e => rw [hsep] at h; exact absurd h (by simp)
  | ok v =>
    obtain ⟨o1, ll, st⟩ := v
    rw [hsep] at h
    dsimp only at h
    cases hdisp : dispatchTT tt peek { s with lastLine := ll, stack := st } with
    | error e => rw [hdisp] at h; exact absurd h (by simp)
    | ok w =>
      obtain ⟨o2, s1⟩ := w
      rw [hdisp] at h
      have hst : st ≠ [] := sepClose_ok_ne _ _ _ _ _ _ hne hsep
      have hs1 : s1.stack ≠ [] :=
        dispatchTT_stack_ne _ _ _ _ _ (by simpa using hst) hdisp
      simp at h
      obtain ⟨_, h2⟩ := h
      exact h2 ▸ hs1

/-- The loop never empties the stack on a successful run. -/
theorem handleList_stack_ne : ∀ (tts : TTList) (s : LoopState) (o : List Out)
    (s2 : LoopState), s.stack ≠ [] → handleList tts s = Except.ok (o, s2) →
    s2.stack ≠ []
  | TTList.nil, s, o, s2, hne, h => by
    simp [handleList] at h
    obtain ⟨_, h2⟩ := h
    subst h2
    exact hne
  | TTList.cons tt rest, s, o, s2, hne, h => by
    rw [handleList_cons] at h
    cases hstep : step tt rest.headOpt s with
    | error e => rw [hstep] at h; exact absurd h (by simp)
    | ok w =>
      obtain ⟨o1, s1⟩ := w
      rw [hstep] at h
      dsimp only at h
      cases hrec : handleList rest s1 with
      | error e => rw [hrec] at h; exact absurd h (by simp)
      | ok u =>
        obtain ⟨o2, s3⟩ := u
        rw [hrec] at h
        simp at h
        obtain ⟨_, h2⟩ := h
        have hs1 := step_stack_ne _ _ _ _ _ hne hstep
        exact h2 ▸ handleList_stack_ne rest s1 o2 s3 hs1 hrec

mutual
theorem dispatchTT_balance (tt : TokenTree) (peek : Option TokenTree) (s : LoopState)
    (o : List Out) (s2 : LoopState)
    (h : dispatchTT tt peek s = Except.ok (o, s2)) :
    o.count Out.openB + s.stack.length = o.count Out.closeB + s2.stack.length := by
  cases tt with
  | tok span t =>
    cases t with
    | fatArrow =>
      cases hst : s.stack with
      | nil => simp [dispatchTT, hst] at h
      | cons hd rest =>
        obtain ⟨c, f⟩ := hd
        cases peek with
        | none =>
          simp [dispatchTT, hst] at h
          obtain ⟨h1, h2⟩ := h
          subst h1
          subst h2
          have hc := printWithSpan_counts s.lastPos "=>" span
          by_cases hf : f = BlockFlag.matchF <;>
            simp [hf, hst, List.count_append, List.count_cons, hc.1, hc.2]
        | some ptt =>
          simp [dispatchTT, hst] at h
          obtain ⟨h1, h2⟩ := h
          subst h1
          subst h2
          have hc := printWithSpan_counts s.lastPos "=>" span
          by_cases hf : f = BlockFlag.matchF <;>
            simp [hf, hst, List.count_append, List.count_cons, hc.1, hc.2] <;>
            omega
    | ident name pl =>
      simp [dispatchTT] at h
      obtain ⟨h1, h2⟩ := h
      subst h1
      subst h2
      have hc := printWithSpan_counts s.lastPos (tokenToString (Tok.ident name pl)) span
      simp [List.count_append, hc.1, hc.2]
    | other r =>
      simp [dispatchTT] at h
      obtain ⟨h1, h2⟩ := h
      subst h1
      subst h2
      have hc := printWithSpan_counts s.lastPos (tokenToString (Tok.other r)) span
      simp [List.count_append, hc.1, hc.2]
  | delimited sp d os cs inner =>
    simp only [dispatchTT] at h
    cases hl : handleList inner ⟨(printWithSpan s.lastPos (openStr d) os).2,
        (printWithSpan s.lastPos (openStr d) os).2.line,
        [(0, BlockFlag.toplevel)], BlockFlag.noneF⟩ with
    | error e => rw [hl] at h; exact absurd h (by simp)
    | ok w =>
      obtain ⟨o2, si⟩ := w
      rw [hl] at h
      dsimp only at h
      simp at h
      obtain ⟨h1, h2⟩ := h
      subst h1
      subst h2
      have hb := handleList_balance inner _ _ _ hl
      have hne : si.stack ≠ [] := handleList_stack_ne inner _ _ _ (by simp) hl
      have hcO := printWithSpan_counts s.lastPos (openStr d) os
      have hcC := printWithSpan_counts si.lastPos (closeStr d) cs
      have hcR := closeRemaining_count si.stack
      have hlen : si.stack.length ≠ 0 := by
        simpa using fun hx => hne (List.length_eq_zero.mp hx)
      simp [List.count_append, hcO.1, hcO.2, hcC.1, hcC.2, hcR.1, hcR.2] at hb ⊢
      omega
  | sequence sp => simp [dispatchTT] at h

theorem handleList_balance : ∀ (tts : TTList) (s : LoopState) (o : List Out)
    (s2 : LoopState), handleList tts s = Except.ok (o, s2) →
    o.count Out.openB + s.stack.length = o.count Out.closeB + s2.stack.length
  | TTList.nil, s, o, s2, h => by
    simp [handleList] at h
    obtain ⟨h1, h2⟩ := h
    subst h1
    subst h2
    simp
  | TTList.cons tt rest, s, o, s2, h => by
    simp only [handleList] at h
    cases hsep : sepClose (getSpan tt) s.lastLine s.stack with
    | error e => rw [hsep] at h; exact absurd h (by simp)
    | ok v =>
      obtain ⟨o1, ll, st⟩ := v
      rw [hsep] at h
      dsimp only at h
      cases hdisp : dispatchTT tt rest.headOpt { s with lastLine := ll, stack := st } with
      | error e => rw [hdisp] at h; exact absurd h (by simp)
      | ok w =>
        obtain ⟨o2, s1⟩ := w
        rw [hdisp] at h
        dsimp only at h
        cases hrec : handleList rest s1 with
        | error e => rw [hrec] at h; exact absurd h (by simp)
        | ok u =>
          obtain ⟨o3, s3⟩ := u
          rw [hrec] at h
          simp at h
          obtain ⟨h1, h2⟩ := h
          subst h1
          subst h2
          obtain ⟨b1a, b1b⟩ := sepClose_balance _ _ _ _ _ _ hsep
          have b2 := dispatchTT_balance tt rest.headOpt _ _ _ hdisp
          have b3 := handleList_balance rest _ _ _ hrec
          simp [List.count_append] at b2 ⊢
          omega
end

/-- Claim C1 (corrected): when the next item starts on a new line at the
top level's column, the engine emits exactly one separator, a semicolon
when the top kind is Plain (BlockFlag None) and a comma for every other
kind, the TopLevel sentinel included; the source does not special-case
TopLevel on the equal-column path. -/
theorem equal_column_separator (span : SpanEnds) (lastLine c : Nat) (k : BlockFlag)
    (rest : List (Nat × BlockFlag)) (h1 : lastLine ≠ USIZE_MAX)
    (h2 : span.lastLine > lastLine) (h3 : span.firstCol = c) :
    sepClose span lastLine ((c, k) :: rest) =
      Except.ok ([if k = BlockFlag.noneF then Out.semi else Out.comma],
        span.lastLine, (c, k) :: rest) := by
  simp [sepClose, h1, h2, h3]

/-- Claim C1 witness: the equal-column decision over the bare TopLevel
sentinel emits a comma. -/
theorem equal_column_separator_witness :
    sepClose ⟨1, 0, 1, 1⟩ 0 [(0, BlockFlag.toplevel)] =
      Except.ok ([Out.comma], 1, [(0, BlockFlag.toplevel)]) := by
  have h := equal_column_separator ⟨1, 0, 1, 1⟩ 0 0 BlockFlag.toplevel []
    (by decide) (by decide) rfl
  simpa using h

/-- Claim C1 counterexample: on Scenario B, a then b both at column 0
with no level ever pushed, the transform synthesizes a comma, not
nothing. -/
theorem toplevel_equal_column_comma_cex :
    slagMain exB = Except.ok (exBOut, ⟨1, 1⟩) ∧ Out.comma ∈ exBOut :=
  ⟨rfl, by decide⟩

/-- Claim C2 (corrected): at a fat-arrow token the marker text is
re-emitted, directly followed by the synthetic block open, exactly when
the top Indentation Level's kind is the Match kind; otherwise only the
synthetic block open is emitted.  The empty peek closes the block at
once; a nonempty peek pushes the peeked item's column with the pending
flag and resets the pending flag. -/
theorem fatArrow_text_iff_match (span : SpanEnds) (s : LoopState) (c : Nat)
    (f : BlockFlag) (rest : List (Nat × BlockFlag)) (h : s.stack = (c, f) :: rest) :
    (dispatchTT (TokenTree.tok span Tok.fatArrow) none s =
      Except.ok ((if f = BlockFlag.matchF
            then (printWithSpan s.lastPos "=>" span).1 else []) ++
          [Out.openB, Out.closeB],
        { s with lastPos := if f = BlockFlag.matchF
            then (printWithSpan s.lastPos "=>" span).2 else s.lastPos })) ∧
    (∀ ptt, dispatchTT (TokenTree.tok span Tok.fatArrow) (some ptt) s =
      Except.ok ((if f = BlockFlag.matchF
            then (printWithSpan s.lastPos "=>" span).1 else []) ++ [Out.openB],
        { lastPos := if f = BlockFlag.matchF
            then (printWithSpan s.lastPos "=>" span).2 else s.lastPos,
          lastLine := (getSpan ptt).lastLine,
          stack := ((getSpan ptt).firstCol, s.blockFlag) :: (c, f) :: rest,
          blockFlag := BlockFlag.noneF })) := by
  constructor
  · by_cases hf : f = BlockFlag.matchF <;> simp [dispatchTT, h, hf]
  · intro ptt
    by_cases hf : f = BlockFlag.matchF <;> simp [dispatchTT, h, hf]

/-- Claim C2 witness: a fat arrow processed while a Match level is on
top re-emits the arrow text and then the block open, pushing the peeked
column. -/
theorem fatArrow_text_iff_match_witness :
    dispatchTT (TokenTree.tok ⟨0, 6, 0, 8⟩ Tok.fatArrow)
      (some (TokenTree.tok ⟨1, 8, 1, 9⟩ (Tok.other "a")))
      ⟨⟨0, 5⟩, 0, [(4, BlockFlag.matchF), (0, BlockFlag.toplevel)], BlockFlag.noneF⟩ =
      Except.ok ([Out.spaces 1, Out.text "=>", Out.openB],
        ⟨⟨0, 8⟩, 1,
          [(8, BlockFlag.noneF), (4, BlockFlag.matchF), (0, BlockFlag.toplevel)],
          BlockFlag.noneF⟩) := by
  have h := (fatArrow_text_iff_match ⟨0, 6, 0, 8⟩
    ⟨⟨0, 5⟩, 0, [(4, BlockFlag.matchF), (0, BlockFlag.toplevel)], BlockFlag.noneF⟩
    4 BlockFlag.matchF [(0, BlockFlag.toplevel)] rfl).2
    (TokenTree.tok ⟨1, 8, 1, 9⟩ (Tok.other "a"))
  simpa [printWithSpan, getSpan] using h

/-- Claim C2 counterexample: on Scenario A the arrow introducing the
match block is processed while the TopLevel sentinel is on top, so its
text never reaches the output. -/
theorem fatArrow_verbatim_cex :
    slagMain exA = Except.ok (exAOut, ⟨2, 5⟩) ∧ Out.text "=>" ∉ exAOut :=
  ⟨rfl, by decide⟩

/-- Claim C3 (corrected): every successful loop step taken from a state
with a non-empty Indentation Stack ends with a non-empty stack, so the
stack of a non-aborting run is never empty; strict column increase is
not part of the invariant. -/
theorem step_preserves_stack_nonempty (tt : TokenTree) (peek : Option TokenTree)
    (s : LoopState) (o : List Out) (s2 : LoopState) (hne : s.stack ≠ [])
    (h : step tt peek s = Except.ok (o, s2)) : s2.stack ≠ [] :=
  step_stack_ne tt peek s o s2 hne h

/-- Claim C3 witness: a concrete successful step out of the seeded
state keeps the stack non-empty. -/
theorem step_preserves_stack_nonempty_witness :
    step (TokenTree.tok ⟨0, 0, 0, 1⟩ (Tok.other "a")) none (initState ⟨USIZE_MAX, 0⟩) =
      Except.ok ([Out.spaces 0, Out.text "a"],
        ⟨⟨0, 1⟩, 0, [(0, BlockFlag.toplevel)], BlockFlag.noneF⟩) ∧
    (⟨⟨0, 1⟩, 0, [(0, BlockFlag.toplevel)], BlockFlag.noneF⟩ : LoopState).stack ≠ [] :=
  ⟨rfl, step_preserves_stack_nonempty (TokenTree.tok ⟨0, 0, 0, 1⟩ (Tok.other "a"))
    none (initState ⟨USIZE_MAX, 0⟩) [Out.spaces 0, Out.text "a"]
    ⟨⟨0, 1⟩, 0, [(0, BlockFlag.toplevel)], BlockFlag.noneF⟩ (by decide) rfl⟩

/-- Claim C3 counterexample: a fat arrow whose following item dedents to
column 0 pushes a second column-0 level over the sentinel, so the stack
is not strictly increasing bottom to top. -/
theorem stack_strict_increase_cex :
    handleList ex3 (initState ⟨USIZE_MAX, 0⟩) = Except.ok (ex3Out, ex3State) ∧
    ex3State.stack = [(0, BlockFlag.matchF), (0, BlockFlag.toplevel)] ∧
    decreasingCols ex3State.stack = false :=
  ⟨rfl, rfl, rfl⟩

/-- Claim C4 (corrected): the separator/close decision is a no-op on an
item exactly when the loop-local last line still holds the usize::MAX
sentinel; only the top-level invocation starts that way, recursive
invocations inherit the emitter cursor's line. -/
theorem first_item_skip_at_sentinel (span : SpanEnds) (stack : List (Nat × BlockFlag)) :
    sepClose span USIZE_MAX stack = Except.ok ([], span.firstLine, stack) := by
  simp [sepClose]

/-- Claim C4 counterexample: a recursive invocation on a parenthesis
group emits a separator before the very first inner item because the
inherited cursor line is not the sentinel. -/
theorem group_first_item_separator_cex :
    slagMain exParen = Except.ok (exParenOut, ⟨1, 2⟩) ∧ Out.comma ∈ exParenOut :=
  ⟨rfl, by decide⟩

/-- Claim C5 (confirmed): an item that starts a new line below the top
column while no open level carries its column makes the whole engine
invocation abort with the fatal indentation error, with no
closest-match recovery. -/
theorem dedent_unmatched_is_fatal (tt : TokenTree) (rest : TTList) (s : LoopState)
    (c0 : Nat) (k0 : BlockFlag) (r : List (Nat × BlockFlag))
    (hst : s.stack = (c0, k0) :: r) (h1 : s.lastLine ≠ USIZE_MAX)
    (h2 : (getSpan tt).lastLine > s.lastLine) (h3 : (getSpan tt).firstCol < c0)
    (h4 : ∀ l ∈ (c0, k0) :: r, l.1 ≠ (getSpan tt).firstCol) :
    handleList (TTList.cons tt rest) s = Except.error Err.indentNotFound := by
  have hp := popTo_not_mem (getSpan tt).firstCol ((c0, k0) :: r) h4
  have hne : (getSpan tt).firstCol ≠ c0 := Nat.ne_of_lt h3
  simp [handleList, sepClose, hst, h1, h2, h3, hne, hp]

/-- Claim C5 witness: dedenting to column 2 with open levels at 4 and 0
only aborts the run. -/
theorem dedent_unmatched_is_fatal_witness :
    handleList (TTList.cons (TokenTree.tok ⟨2, 2, 2, 3⟩ (Tok.other "b")) TTList.nil)
      ⟨⟨1, 5⟩, 1, [(4, BlockFlag.noneF), (0, BlockFlag.toplevel)], BlockFlag.noneF⟩ =
      Except.error Err.indentNotFound :=
  dedent_unmatched_is_fatal (TokenTree.tok ⟨2, 2, 2, 3⟩ (Tok.other "b")) TTList.nil
    ⟨⟨1, 5⟩, 1, [(4, BlockFlag.noneF), (0, BlockFlag.toplevel)], BlockFlag.noneF⟩
    4 BlockFlag.noneF [(0, BlockFlag.toplevel)] rfl (by decide) (by decide)
    (by decide) (by decide)

/-- Claim C6 (confirmed): every run of handle_tts that returns
successfully emits as many synthesized block opens as synthesized block
closes. -/
theorem synthesized_delimiters_balanced (tts : TTList) (p : Pos) (o : List Out)
    (q : Pos) (h : handleTTs tts p = Except.ok (o, q)) :
    o.count Out.openB = o.count Out.closeB := by
  unfold handleTTs at h
  cases hl : handleList tts ⟨p, p.line, [(0, BlockFlag.toplevel)], BlockFlag.noneF⟩ with
  | error e => rw [hl] at h; exact absurd h (by simp)
  | ok w =>
    obtain ⟨o1, s1⟩ := w
    rw [hl] at h
    simp at h
    obtain ⟨h1, _⟩ := h
    subst h1
    have hb := handleList_balance tts _ _ _ hl
    have hne := handleList_stack_ne tts _ _ _ (by simp) hl
    have hcR := closeRemaining_count s1.stack
    have hlen : s1.stack.length ≠ 0 := by
      simpa using fun hx => hne (List.length_eq_zero.mp hx)
    simp [List.count_append, hcR.1, hcR.2] at hb ⊢
    omega

/-- Claim C6 witness: the Scenario A run emits one synthesized open and
one synthesized close. -/
theorem synthesized_delimiters_balanced_witness :
    handleTTs exA ⟨USIZE_MAX, 0⟩ = Except.ok (exAOut, ⟨2, 5⟩) ∧
    exAOut.count Out.openB = exAOut.count Out.closeB :=
  ⟨rfl, synthesized_delimiters_balanced exA ⟨USIZE_MAX, 0⟩ exAOut ⟨2, 5⟩ rfl⟩

/-- Claim C7 (confirmed): a dedent to the column of a deeper open level
pops every level above it, emitting one synthesized close per popped
level from innermost outward, and only then emits the separator of the
new top level. -/
theorem dedent_pops_then_separator (span : SpanEnds) (lastLine : Nat)
    (pre : List (Nat × BlockFlag)) (c : Nat) (k : BlockFlag)
    (rest : List (Nat × BlockFlag)) (h1 : lastLine ≠ USIZE_MAX)
    (h2 : span.lastLine > lastLine) (h3 : pre ≠ [])
    (h4 : ∀ l ∈ pre, span.firstCol < l.1) (h5 : span.firstCol = c) :
    sepClose span lastLine (pre ++ (c, k) :: rest) =
      Except.ok (List.replicate pre.length Out.closeB ++
          (if k = BlockFlag.noneF then [Out.semi]
            else if k ≠ BlockFlag.toplevel then [Out.comma] else []),
        span.lastLine, (c, k) :: rest) := by
  subst h5
  cases pre with
  | nil => exact absurd rfl h3
  | cons hd pre2 =>
    obtain ⟨c0, k0⟩ := hd
    have hlt : span.firstCol < c0 := h4 (c0, k0) (by simp)
    have hne : span.firstCol ≠ c0 := Nat.ne_of_lt hlt
    have hmem : ∀ l ∈ (c0, k0) :: pre2, l.1 ≠ span.firstCol :=
      fun l hl => Nat.ne_of_gt (h4 l hl)
    have hp := popTo_skip span.firstCol ((c0, k0) :: pre2) k rest hmem
    rw [List.cons_append] at hp ⊢
    unfold sepClose
    rw [if_neg h1, if_pos h2]
    dsimp only
    rw [if_neg hne, if_pos hlt, hp]

/-- Claim C7 witness: levels at 12, 8, 4 with the next item at column 4
give two closes, innermost first, then the column-4 separator. -/
theorem dedent_pops_then_separator_witness :
    sepClose ⟨2, 4, 2, 5⟩ 1
      [(12, BlockFlag.noneF), (8, BlockFlag.noneF), (4, BlockFlag.noneF),
        (0, BlockFlag.toplevel)] =
      Except.ok ([Out.closeB, Out.closeB, Out.semi], 2,
        [(4, BlockFlag.noneF), (0, BlockFlag.toplevel)]) := by
  have h := dedent_pops_then_separator ⟨2, 4, 2, 5⟩ 1
    [(12, BlockFlag.noneF), (8, BlockFlag.noneF)] 4 BlockFlag.noneF
    [(0, BlockFlag.toplevel)] (by decide) (by decide) (by decide)
    (by decide) rfl
  simpa using h

/-- Claim C8 (confirmed): a fat arrow with nothing after it emits the
synthetic block open immediately followed by the block close, pushes
nothing, leaves last_line and block_flag unchanged, and returns
normally on the empty peek. -/
theorem empty_block_on_eos (span : SpanEnds) (s : LoopState) (c : Nat)
    (f : BlockFlag) (rest : List (Nat × BlockFlag)) (h : s.stack = (c, f) :: rest) :
    dispatchTT (TokenTree.tok span Tok.fatArrow) none s =
      Except.ok ((if f = BlockFlag.matchF
            then (printWithSpan s.lastPos "=>" span).1 else []) ++
          [Out.openB, Out.closeB],
        { s with lastPos := if f = BlockFlag.matchF
            then (printWithSpan s.lastPos "=>" span).2 else s.lastPos }) := by
  by_cases hf : f = BlockFlag.matchF <;> simp [dispatchTT, h, hf]

/-- Claim C8 witness: a fat arrow at end of stream inside a Match level
emits the arrow text, the open and the close back to back. -/
theorem empty_block_on_eos_witness :
    dispatchTT (TokenTree.tok ⟨0, 6, 0, 8⟩ Tok.fatArrow) none
      ⟨⟨0, 5⟩, 0, [(4, BlockFlag.matchF), (0, BlockFlag.toplevel)], BlockFlag.noneF⟩ =
      Except.ok ([Out.spaces 1, Out.text "=>", Out.openB, Out.closeB],
        ⟨⟨0, 8⟩, 0, [(4, BlockFlag.matchF), (0, BlockFlag.toplevel)],
          BlockFlag.noneF⟩) := by
  have h := empty_block_on_eos ⟨0, 6, 0, 8⟩
    ⟨⟨0, 5⟩, 0, [(4, BlockFlag.matchF), (0, BlockFlag.toplevel)], BlockFlag.noneF⟩
    4 BlockFlag.matchF [(0, BlockFlag.toplevel)] rfl
  simpa [printWithSpan] using h

/-- Claim C9 (confirmed): the emitter starts a new line with exactly
first-column many spaces when the token starts on a later line than the
cursor, otherwise pads the current line with the clamped non-negative
column difference, and in each case the cursor becomes the token's end
position. -/
theorem emitter_padding_and_cursor (p : Pos) (tok : String) (span : SpanEnds) :
    (printWithSpan p tok span).2 = ⟨span.lastLine, span.lastCol⟩ ∧
    (span.firstLine > p.line →
      (printWithSpan p tok span).1 =
        [Out.newline, Out.spaces span.firstCol, Out.text tok]) ∧
    (¬ span.firstLine > p.line →
      (printWithSpan p tok span).1 =
        [Out.spaces (((span.firstCol : Int) - (p.col : Int)).toNat), Out.text tok]) := by
  refine ⟨rfl, fun h => by simp [printWithSpan, h], fun h => ?_⟩
  simp only [printWithSpan, if_neg h]
  have hsub : span.firstCol - p.col = ((span.firstCol : Int) - (p.col : Int)).toNat := by
    omega
  rw [hsub]

/-- Claim C9 witness: a same-line token left of the cursor gets a
zero-width pad, and a next-line token gets a newline plus its column. -/
theorem emitter_padding_and_cursor_witness :
    (printWithSpan ⟨0, 7⟩ "x" ⟨0, 3, 0, 4⟩).1 = [Out.spaces 0, Out.text "x"] ∧
    (printWithSpan ⟨5, 0⟩ "y" ⟨6, 3, 6, 4⟩).1 =
      [Out.newline, Out.spaces 3, Out.text "y"] := by
  constructor
  · have h := (emitter_padding_and_cursor ⟨0, 7⟩ "x" ⟨0, 3, 0, 4⟩).2.2 (by decide)
    simpa using h
  · exact (emitter_padding_and_cursor ⟨5, 0⟩ "y" ⟨6, 3, 6, 4⟩).2.1 (by decide)

/-- Claim C10 (confirmed): synthesized punctuation never moves the
emitter cursor: after a step on a non-arrow leaf token the cursor is
the token's end position no matter which separators or closes the step
synthesized, and a fat-arrow dispatch outside a Match level, which only
writes synthetic delimiters, leaves the cursor untouched. -/
theorem synthetic_writes_preserve_cursor :
    (∀ (span : SpanEnds) (t : Tok) (peek : Option TokenTree) (s : LoopState)
      (o : List Out) (s2 : LoopState), t ≠ Tok.fatArrow →
      step (TokenTree.tok span t) peek s = Except.ok (o, s2) →
      s2.lastPos = ⟨span.lastLine, span.lastCol⟩) ∧
    (∀ (span : SpanEnds) (peek : Option TokenTree) (s : LoopState)
      (o : List Out) (s2 : LoopState) (c : Nat) (f : BlockFlag)
      (rest : List (Nat × BlockFlag)), s.stack = (c, f) :: rest →
      f ≠ BlockFlag.matchF →
      dispatchTT (TokenTree.tok span Tok.fatArrow) peek s = Except.ok (o, s2) →
      s2.lastPos = s.lastPos) := by
  constructor
  · intro span t peek s o s2 hfa h
    simp only [step, getSpan] at h
    cases hsep : sepClose span s.lastLine s.stack with
    | error e => rw [hsep] at h; exact absurd h (by simp)
    | ok v =>
      obtain ⟨o1, ll, st⟩ := v
      rw [hsep] at h
      dsimp only at h
      cases t with
      | fatArrow => exact absurd rfl hfa
      | ident name pl =>
        simp [dispatchTT] at h
        obtain ⟨_, h2⟩ := h
        subst h2
        rfl
      | other r =>
        simp [dispatchTT] at h
        obtain ⟨_, h2⟩ := h
        subst h2
        rfl
  · intro span peek s o s2 c f rest hst hf h
    cases peek with
    | none =>
      simp [dispatchTT, hst, hf] at h
      obtain ⟨_, h2⟩ := h
      subst h2
      rfl
    | some ptt =>
      simp [dispatchTT, hst, hf] at h
      obtain ⟨_, h2⟩ := h
      subst h2
      rfl

/-- Claim C10 witness: the step that synthesizes the Scenario B comma
still leaves the cursor at the end of the token b it wrote. -/
theorem synthetic_writes_preserve_cursor_witness :
    step (TokenTree.tok ⟨1, 0, 1, 1⟩ (Tok.other "b")) none
      ⟨⟨0, 1⟩, 0, [(0, BlockFlag.toplevel)], BlockFlag.noneF⟩ =
      Except.ok ([Out.comma, Out.newline, Out.spaces 0, Out.text "b"],
        ⟨⟨1, 1⟩, 1, [(0, BlockFlag.toplevel)], BlockFlag.noneF⟩) ∧
    (⟨⟨1, 1⟩, 1, [(0, BlockFlag.toplevel)], BlockFlag.noneF⟩ : LoopState).lastPos =
      ⟨1, 1⟩ :=
  ⟨rfl, synthetic_writes_preserve_cursor.1 ⟨1, 0, 1, 1⟩ (Tok.other "b") none
    ⟨⟨0, 1⟩, 0, [(0, BlockFlag.toplevel)], BlockFlag.noneF⟩
    [Out.comma, Out.newline, Out.spaces 0, Out.text "b"]
    ⟨⟨1, 1⟩, 1, [(0, BlockFlag.toplevel)], BlockFlag.noneF⟩ (by decide) rfl⟩

end Slag
